import Mathlib

set_option maxHeartbeats 1000000

/-!
Verification development for the fin_learning_bot repository
(message store, conversation tracker, event router, broadcast dispatcher).

The Go source is shallowly embedded: the SQLite `messages` table is a list of
rows plus the AUTOINCREMENT counter, each store operation is a pure function on
that state, the event handler is a function returning `Option` (where `none`
models a nil-pointer-dereference panic), and the remote platform (send / list
RPCs) is passed in as an explicit function parameter.

`time.Time` values and the DATETIME column are modelled by their serialized
text form: the driver writes a text rendering into the column, SQLite compares
TEXT values lexicographically, and `time.Parse` is modelled as validation of
the `2006-01-02 15:04:05` layout, an instant being represented by the stored
text that denotes it.
-/

namespace FinBot

/-! ## Message store (src/storage/storage.go and the storage part of the repo) -/

/-- A row of the `messages` table / the Go `storage.Message` struct:
`id` (AUTOINCREMENT surrogate key), `chat_id`, `message_id` (UNIQUE),
`sender_id`, `sender_type`, `content`, `message_type`, `created_at`
(DATETIME, stored as text). -/
structure Message where
  id : Nat
  chatId : String
  messageId : String
  senderId : String
  senderType : String
  content : String
  messageType : String
  createdAt : String
deriving DecidableEq, Repr

/-- State of the `messages` table: current rows (in insertion order) and the
next AUTOINCREMENT id. -/
structure DB where
  rows : List Message
  nextId : Nat
deriving DecidableEq, Repr

/-- Model of `Storage.SaveMessage`: `INSERT ... ON CONFLICT(message_id) DO
UPDATE SET content = excluded.content, created_at = excluded.created_at`.
If a row with the same `message_id` exists, only its `content` and
`created_at` are replaced; otherwise a fresh row is inserted with the next
sequence id.  The preliminary existence check in the Go code only logs, and
the conflict is absorbed by the upsert, so no error is possible here (errors
in the Go code arise only from engine faults, which are outside the model). -/
def SaveMessage (db : DB) (msg : Message) : DB :=
  if db.rows.any (fun r => r.messageId == msg.messageId) then
    { db with rows := db.rows.map (fun r =>
        if r.messageId == msg.messageId then
          { r with content := msg.content, createdAt := msg.createdAt }
        else r) }
  else
    let newRow : Message :=
      { id := db.nextId, chatId := msg.chatId, messageId := msg.messageId,
        senderId := msg.senderId, senderType := msg.senderType,
        content := msg.content, messageType := msg.messageType,
        createdAt := msg.createdAt }
    { rows := db.rows ++ [newRow], nextId := db.nextId + 1 }

/-- Comparator realizing the `ORDER BY created_at DESC` of the queries:
`newerLE a b` holds when `a` sorts no later than `b` in the newest-first
output.  SQLite compares the TEXT column lexicographically; the SQL names no
secondary sort key, and on this schema the planner answers the query with
`idx_chat_id` plus a temporary B-tree sort, which emits rows of equal
`created_at` in ascending rowid order (verified empirically on the exact
schema) — so among timestamp ties the smaller sequence id comes first in
the newest-first output. -/
def newerLE (a b : Message) : Bool :=
  decide (b.createdAt < a.createdAt) ||
    (a.createdAt == b.createdAt && decide (a.id ≤ b.id))

/-- The rows of one conversation, in table order
(`WHERE chat_id = ?`). -/
def convRows (db : DB) (chatID : String) : List Message :=
  db.rows.filter (fun r => r.chatId == chatID)

/-- The newest-first query `SELECT ... WHERE chat_id = ? ORDER BY created_at
DESC LIMIT lim` shared by `GetMessagesByChatID` and `DeleteOldMessages`. -/
def queryNewestFirst (db : DB) (chatID : String) (lim : Nat) : List Message :=
  ((convRows db chatID).mergeSort newerLE).take lim

/-- Numeric value of a digit character. -/
def digitVal (c : Char) : Nat := c.toNat - 48

def isLeapYear (y : Nat) : Bool :=
  (y % 4 == 0 && !(y % 100 == 0)) || y % 400 == 0

def daysInMonth (y m : Nat) : Nat :=
  if m == 2 then (if isLeapYear y then 29 else 28)
  else if m == 4 || m == 6 || m == 9 || m == 11 then 30
  else 31

/-- One fixed two-digit numeric field of the layout (`getnum` with
`fixed = true`): exactly two digits are consumed. -/
def parse2Digits : List Char → Option (Nat × List Char)
  | a :: b :: rest =>
    if a.isDigit && b.isDigit then some (digitVal a * 10 + digitVal b, rest)
    else none
  | _ => none

/-- The four-digit year field of layout `2006`. -/
def parse4Digits : List Char → Option (Nat × List Char)
  | a :: b :: c :: d :: rest =>
    if a.isDigit && b.isDigit && c.isDigit && d.isDigit then
      some ((((digitVal a * 10 + digitVal b) * 10 + digitVal c) * 10 + digitVal d), rest)
    else none
  | _ => none

/-- The hour field of layout `15` (`getnum` with `fixed = false`): two
digits are consumed when the second character is a digit, otherwise one. -/
def parseHourNum : List Char → Option (Nat × List Char)
  | [] => none
  | a :: rest =>
    if a.isDigit then
      match rest with
      | b :: rest2 =>
        if b.isDigit then some (digitVal a * 10 + digitVal b, rest2)
        else some (digitVal a, b :: rest2)
      | [] => some (digitVal a, [])
    else none

/-- One literal separator character of the layout. -/
def expectChar (c : Char) : List Char → Option (List Char)
  | a :: rest => if a == c then some rest else none
  | [] => none

/-- What may follow the seconds: nothing, or — by the fractional-second
special case of `Parse` — a `.` or `,` followed by one or more digits
(Go 1.22 truncates beyond nine digits rather than failing, so any digit
count is accepted). -/
def fracOK : List Char → Bool
  | [] => true
  | c :: ds => (c == '.' || c == ',') && !ds.isEmpty && ds.all Char.isDigit

/-- Model of Go `time.Parse("2006-01-02 15:04:05", s)` succeeding: a
four-digit year, two-digit zero-padded month/day/minute/second fields, an
hour of one or two digits (layout `15` parses non-fixed), the literal
separators, in-range field values (month 1..12, day 1..daysInMonth, hour
0..23, minute/second 0..59), optionally a fractional second, and no
trailing text. -/
def isValidDateTime (s : String) : Bool :=
  (do
    let (y, r1) ← parse4Digits s.data
    let r2 ← expectChar '-' r1
    let (mo, r3) ← parse2Digits r2
    let r4 ← expectChar '-' r3
    let (d, r5) ← parse2Digits r4
    let r6 ← expectChar ' ' r5
    let (hh, r7) ← parseHourNum r6
    let r8 ← expectChar ':' r7
    let (mi, r9) ← parse2Digits r8
    let r10 ← expectChar ':' r9
    let (ss, r11) ← parse2Digits r10
    if 1 ≤ mo ∧ mo ≤ 12 ∧ 1 ≤ d ∧ d ≤ daysInMonth y mo ∧ hh ≤ 23 ∧
        mi ≤ 59 ∧ ss ≤ 59 ∧ fracOK r11 = true then
      some ()
    else none).isSome

/-- Model of the row-scanning step of `GetMessagesByChatID`: every column is
copied into the returned `Message`; the `created_at` text is parsed with
layout `2006-01-02 15:04:05`, and on parse failure the current wall-clock
time `now` is used instead (the parse failure is swallowed, never returned). -/
def scanRow (now : String) (r : Message) : Message :=
  if isValidDateTime r.createdAt then r else { r with createdAt := now }

/-- The effective row limit: `if limit <= 0 { limit = 50 }`. -/
def effLimit (limit : Int) : Nat :=
  (if limit ≤ 0 then (50 : Int) else limit).toNat

/-- Model of `Storage.GetMessagesByChatID`: non-positive limits become 50,
the newest-first query result is scanned row by row and then reversed in
place so the caller sees chronological (oldest-first) order. -/
def GetMessagesByChatID (db : DB) (chatID : String) (limit : Int) (now : String) :
    List Message :=
  ((queryNewestFirst db chatID (effLimit limit)).map (scanRow now)).reverse

/-- Model of `Storage.DeleteOldMessages`: first `SELECT id ... ORDER BY
created_at DESC LIMIT keepCount` collects the surviving ids; if that set is
empty every row of the conversation is deleted (`DELETE ... WHERE chat_id =
?`), otherwise `DELETE ... WHERE chat_id = ? AND id NOT IN (...)` runs.
SQLite treats a negative LIMIT as no limit, so a negative `keepCount` keeps
every row. -/
def DeleteOldMessages (db : DB) (chatID : String) (keepCount : Int) : DB :=
  let sorted := (convRows db chatID).mergeSort newerLE
  let keepRows := if keepCount < 0 then sorted else sorted.take keepCount.toNat
  let keepIDs := keepRows.map (fun r => r.id)
  if keepIDs.isEmpty then
    { db with rows := db.rows.filter (fun r => !(r.chatId == chatID)) }
  else
    { db with rows := db.rows.filter (fun r =>
        !(r.chatId == chatID && !(keepIDs.contains r.id))) }

/-! ## Conversation tracker (service.LarkService.UpdateRecentChat / GetRecentChat)

The tracker is the `recentChat` pointer field guarded by an RWMutex; the
lock only serializes access, so the sequential semantics is a single
overwritable slot, `none` until the first update. -/

/-- The Go `service.RecentChat` struct. -/
structure RecentChat where
  chatID : String
  chatType : String
deriving DecidableEq, Repr

/-- Model of `LarkService.UpdateRecentChat`: unconditionally overwrites the
slot with a fresh snapshot. -/
def UpdateRecentChat (_s : Option RecentChat) (chatID chatType : String) :
    Option RecentChat :=
  some { chatID := chatID, chatType := chatType }

/-- Model of `LarkService.GetRecentChat`: returns the slot unchanged
(`nil` when nothing was ever observed). -/
def GetRecentChat (s : Option RecentChat) : Option RecentChat := s

/-- A sequence of `UpdateRecentChat` calls applied in order. -/
def runUpdates (init : Option RecentChat) (calls : List (String × String)) :
    Option RecentChat :=
  calls.foldl (fun s c => UpdateRecentChat s c.1 c.2) init

/-! ## Broadcast dispatcher (service.LarkService.GetChatList / SendMessageToAllChats)

The paginated chat listing of the remote platform is an explicit function from
page tokens to responses; the Go `for` loop has no termination guarantee of
its own, so the loop is given a fuel bound and `none` models a run that never
reaches a final page within the bound. -/

/-- One response of the platform `Im.Chat.List` call, as consumed by
`GetChatList`: `ok` stands for `err == nil && resp.Success()`, `errMsg` for
the text interpolated into the returned error when not ok, `items` for the
chats of the page (whose `ChatId` pointer may be nil), plus the `HasMore` and
`PageToken` cursor fields. -/
structure PageResp where
  ok : Bool
  errMsg : String
  items : List (Option String)
  hasMore : Option Bool
  pageToken : Option String
deriving DecidableEq, Repr

/-- The loop-continuation test of `GetChatList`:
`resp.Data.HasMore != nil && *resp.Data.HasMore && resp.Data.PageToken != nil`. -/
def contCond (p : PageResp) : Bool :=
  (p.hasMore == some true) && p.pageToken.isSome

/-- The paging loop of `GetChatList`: fetch the page at the current token,
fail the whole call on a fetch failure, otherwise append the non-nil
chat ids and either follow the cursor or stop. -/
def getChatListLoop (fetch : String → PageResp) :
    Nat → String → List String → Option (Except String (List String))
  | 0, _, _ => none
  | fuel + 1, token, acc =>
    let resp := fetch token
    if resp.ok then
      let acc2 := acc ++ resp.items.filterMap id
      if contCond resp then
        getChatListLoop fetch fuel (resp.pageToken.getD "") acc2
      else
        some (Except.ok acc2)
    else
      some (Except.error ("获取群聊列表失败: " ++ resp.errMsg))

/-- Model of `LarkService.GetChatList`: start at the empty page token with an
empty accumulator. -/
def GetChatList (fetch : String → PageResp) (fuel : Nat) :
    Option (Except String (List String)) :=
  getChatListLoop fetch fuel "" []

/-- One entry of the `results` array built by `SendMessageToAllChats`. -/
structure ChatSendResult where
  chatId : String
  status : String
  error : Option String
deriving DecidableEq, Repr

/-- The aggregate map returned by `SendMessageToAllChats`. -/
structure BroadcastSummary where
  total : Nat
  success : Nat
  failed : Nat
  results : List ChatSendResult
deriving DecidableEq, Repr

/-- The per-conversation loop body of `SendMessageToAllChats`, folded over
the chat list: `sendText cid content` is the outcome of
`SendTextMessage(ctx, cid, "chat_id", content)` (`none` = success,
`some e` = the message of the error). -/
def broadcastStep (sendText : String → String → Option String)
    (content : String) (acc : Nat × Nat × List ChatSendResult) (cid : String) :
    Nat × Nat × List ChatSendResult :=
  match sendText cid content with
  | some e =>
    (acc.1, acc.2.1 + 1,
      acc.2.2 ++ [{ chatId := cid, status := "failed", error := some e }])
  | none =>
    (acc.1 + 1, acc.2.1,
      acc.2.2 ++ [{ chatId := cid, status := "success", error := none }])

/-- Model of `LarkService.SendMessageToAllChats`: list the joined chats
(aborting with a wrapped error if the listing fails), return the zero
summary immediately for an empty list, otherwise send to every chat in
listing order, counting successes and failures and recording one result
entry per chat; the call itself succeeds regardless of send failures. -/
def SendMessageToAllChats (fetch : String → PageResp) (fuel : Nat)
    (sendText : String → String → Option String) (content : String) :
    Option (Except String BroadcastSummary) :=
  match GetChatList fetch fuel with
  | none => none
  | some (Except.error e) => some (Except.error ("获取群聊列表失败: " ++ e))
  | some (Except.ok chatIDs) =>
    if chatIDs.isEmpty then
      some (Except.ok { total := 0, success := 0, failed := 0, results := [] })
    else
      let r := chatIDs.foldl (broadcastStep sendText content) (0, 0, [])
      some (Except.ok
        { total := chatIDs.length, success := r.1, failed := r.2.1,
          results := r.2.2 })

/-! ## Event router (the `OnP2MessageReceiveV1` handler registered by
`startWebSocketConnection`)

The message fields of the inbound event are all pointers in the SDK; a `none`
field models a nil pointer.  The handler result is `none` when the Go code
dereferences a nil pointer (a runtime panic), and `some (st, calls)` when it
runs to completion and returns `nil` to the event dispatcher, where `calls`
lists the outbound SDK calls it issued.  The outcome of an outbound call
only affects logging — on `err != nil || !resp.Success()` the handler logs
and returns `nil` — so the send capability does not appear as a parameter. -/

/-- The message payload of the event (`event.Event.Message`), fields nilable. -/
structure EventMessage where
  messageId : Option String
  chatId : Option String
  messageType : Option String
  chatType : Option String
  content : Option String
deriving DecidableEq, Repr

/-- An outbound IM call: `Im.Message.Create` addressed to a chat id, or
`Im.Message.Reply` addressed to a message id, each carrying the built text
content. -/
inductive OutboundCall where
  | create (receiveId : String) (content : String)
  | reply (messageId : String) (content : String)
deriving DecidableEq, Repr

/-- The state the handler touches: the tracker slot and the message table. -/
structure HandlerState where
  recentChat : Option RecentChat
  db : DB
deriving DecidableEq, Repr

/-- Skip JSON whitespace. -/
def skipWs : List Char → List Char
  | c :: rest =>
    if c == ' ' || c == '\t' || c == '\n' || c == '\r' then skipWs rest
    else c :: rest
  | [] => []

/-- Hexadecimal digit test for `\uXXXX` escapes. -/
def isHexDigit (c : Char) : Bool :=
  c.isDigit || ('a' ≤ c && c ≤ 'f') || ('A' ≤ c && c ≤ 'F')

/-- Value of a hexadecimal digit. -/
def hexVal (c : Char) : Nat :=
  if c.isDigit then c.toNat - 48
  else if 'a' ≤ c && c ≤ 'f' then c.toNat - 87
  else c.toNat - 55

def hex4 (a b c d : Char) : Nat :=
  ((hexVal a * 16 + hexVal b) * 16 + hexVal c) * 16 + hexVal d

/-- U+FFFD, which the Go decoder substitutes for unpaired surrogates. -/
def replacementChar : Char := Char.ofNat 0xFFFD

/-- Parse the remainder of a JSON string literal (the opening quote already
consumed), returning the decoded characters and the input after the closing
quote, following the `encoding/json` scanner and unquoter: the escapes
`\"`, `\\`, `\/`, `\b`, `\f`, `\n`, `\r`, `\t` and `\uXXXX` are accepted
(a high/low surrogate escape pair combines into one code point, an unpaired
surrogate becomes U+FFFD without failing), any other escape fails, and a raw
control character below U+0020 fails.  Every step consumes at least one
character, so a fuel of the input length plus one never runs out; callers
pass exactly that. -/
def parseJsonString (fuel : Nat) (cs : List Char) : Option (List Char × List Char) :=
  match fuel with
  | 0 => none
  | fuel + 1 =>
    match cs with
    | [] => none
    | '"' :: rest => some ([], rest)
    | '\\' :: 'u' :: h1 :: h2 :: h3 :: h4 :: rest =>
      if isHexDigit h1 && isHexDigit h2 && isHexDigit h3 && isHexDigit h4 then
        let r1 := hex4 h1 h2 h3 h4
        if 0xD800 ≤ r1 ∧ r1 ≤ 0xDBFF then
          match rest with
          | '\\' :: 'u' :: g1 :: g2 :: g3 :: g4 :: rest2 =>
            if isHexDigit g1 && isHexDigit g2 && isHexDigit g3 && isHexDigit g4 then
              let r2 := hex4 g1 g2 g3 g4
              if 0xDC00 ≤ r2 ∧ r2 ≤ 0xDFFF then
                (parseJsonString fuel rest2).map (fun p =>
                  (Char.ofNat (0x10000 + (r1 - 0xD800) * 0x400 + (r2 - 0xDC00)) :: p.1, p.2))
              else
                (parseJsonString fuel rest).map (fun p => (replacementChar :: p.1, p.2))
            else
              (parseJsonString fuel rest).map (fun p => (replacementChar :: p.1, p.2))
          | _ => (parseJsonString fuel rest).map (fun p => (replacementChar :: p.1, p.2))
        else if 0xDC00 ≤ r1 ∧ r1 ≤ 0xDFFF then
          (parseJsonString fuel rest).map (fun p => (replacementChar :: p.1, p.2))
        else
          (parseJsonString fuel rest).map (fun p => (Char.ofNat r1 :: p.1, p.2))
      else none
    | '\\' :: c :: rest =>
      (parseJsonString fuel rest).bind (fun p =>
        match c with
        | '"' => some ('"' :: p.1, p.2)
        | '\\' => some ('\\' :: p.1, p.2)
        | '/' => some ('/' :: p.1, p.2)
        | 'b' => some (Char.ofNat 0x08 :: p.1, p.2)
        | 'f' => some (Char.ofNat 0x0C :: p.1, p.2)
        | 'n' => some ('\n' :: p.1, p.2)
        | 't' => some ('\t' :: p.1, p.2)
        | 'r' => some ('\r' :: p.1, p.2)
        | _ => none)
    | '\\' :: [] => none
    | c :: rest =>
      if c == '"' || c == '\\' || c.toNat < 0x20 then none
      else (parseJsonString fuel rest).map (fun p => (c :: p.1, p.2))

/-- One member value as `Unmarshal` accepts it into a `string` map element:
a JSON string, or the literal `null` (which leaves the element at the zero
string but still sets the map entry).  Any other value — number, bool,
object, array — is a type mismatch and fails. -/
def parseMemberValue (cs : List Char) : Option (String × List Char) :=
  match skipWs cs with
  | '"' :: afterVal =>
    match parseJsonString (afterVal.length + 1) afterVal with
    | none => none
    | some (val, rest) => some (String.mk val, rest)
  | 'n' :: 'u' :: 'l' :: 'l' :: rest => some ("", rest)
  | _ => none

/-- Parse the members of a JSON object whose values must all be strings or
`null` (`map[string]string`); called after the opening brace, positioned at
the first key or at the closing brace handled by the caller.  `fuel` bounds
the number of members. -/
def parseMembers (fuel : Nat) (cs : List Char)
    (acc : List (String × String)) : Option (List (String × String)) :=
  match fuel with
  | 0 => none
  | fuel + 1 =>
    match skipWs cs with
    | '"' :: afterKey =>
      match parseJsonString (afterKey.length + 1) afterKey with
      | none => none
      | some (key, rest1) =>
        match skipWs rest1 with
        | ':' :: rest2 =>
          match parseMemberValue rest2 with
          | none => none
          | some (valStr, rest3) =>
            let acc2 := acc ++ [(String.mk key, valStr)]
            match skipWs rest3 with
            | ',' :: rest4 => parseMembers fuel rest4 acc2
            | '\x7d' :: rest4 =>
              if (skipWs rest4).isEmpty then some acc2 else none
            | _ => none
        | _ => none
    | _ => none

/-- Model of `json.Unmarshal([]byte(s), &m)` for `m : map[string]string`:
succeeds exactly on a JSON object all of whose values are strings or
`null`, or the top-level literal `null` (which leaves the map nil — for
indexing purposes an empty map), with nothing but whitespace around it;
returns the key/value pairs in textual order. -/
def unmarshalStringMap (s : String) : Option (List (String × String)) :=
  match skipWs s.data with
  | '\x7b' :: rest =>
    match skipWs rest with
    | '\x7d' :: rest2 => if (skipWs rest2).isEmpty then some [] else none
    | _ => parseMembers (rest.length + 1) rest []
  | 'n' :: 'u' :: 'l' :: 'l' :: rest =>
    if (skipWs rest).isEmpty then some [] else none
  | _ => none

/-- Go map indexing `m["text"]`: the value of the last binding of the key
(later duplicate keys overwrite earlier ones in `json.Unmarshal`), or the
zero value `""` when the key is absent. -/
def lookupValue (m : List (String × String)) (k : String) : String :=
  match (m.reverse.find? (fun p => p.1 == k)) with
  | some p => p.2
  | none => ""

/-- The fixed bilingual notice substituted when the payload does not parse
or the message kind is not `text`. -/
def fallbackText : String :=
  "解析消息失败，请发送文本消息\nparse message failed, please send text message"

/-- Model of `NewTextMsgBuilder().TextLine(l1).TextLine(l2).Build()`: the
built content is each line followed by a newline (the JSON envelope the SDK wraps around this text is serialization glue and is not modelled). -/
def replyBody (t : String) : String :=
  "收到你发送的消息: " ++ t ++ "\n" ++ "Received message: " ++ t ++ "\n"

/-- The display text the reply embeds once `*Content` was dereferenced and
parsed with result `some m` or `none`, for a present `messageType`. -/
def displayText (c : String) (mt : String) : String :=
  match unmarshalStringMap c with
  | none => fallbackText
  | some m => if mt == "text" then lookupValue m "text" else fallbackText

/-- The parse-and-fallback step of the handler, with its nil dereferences:
`json.Unmarshal([]byte(*Content), ...)` panics when `Content` is nil, and
when the unmarshal succeeded the short-circuit condition
`err != nil || *MessageType != "text"` dereferences `MessageType`. -/
def extractText (content : Option String) (messageType : Option String) :
    Option String :=
  match content with
  | none => none
  | some c =>
    match unmarshalStringMap c with
    | none => some fallbackText
    | some m =>
      match messageType with
      | none => none
      | some mt =>
        some (if mt == "text" then lookupValue m "text" else fallbackText)

/-- Model of the `OnP2MessageReceiveV1` handler (the variant that persists
messages): log (no effect), update the tracker when `ChatId` is non-nil
(dereferencing `*ChatType` there), save the message when both `MessageId`
and `ChatId` are non-nil (absent `Content`/`MessageType` become `""`),
parse the payload into the display text, build the bilingual reply, and
dispatch on `*ChatType`: `"p2p"` creates a message addressed to `*ChatId`,
anything else replies to `*MessageId`.  `none` is a nil-pointer panic;
otherwise the handler returns `nil` to the dispatcher and the issued
outbound calls are listed. -/
def OnP2MessageReceiveV1 (now : String) (st : HandlerState) (ev : EventMessage) :
    Option (HandlerState × List OutboundCall) :=
  let trackStep : Option HandlerState :=
    match ev.chatId with
    | none => some st
    | some cid =>
      match ev.chatType with
      | none => none
      | some ct =>
        let chatTypeStr := if ct == "p2p" then "p2p" else "group"
        some { st with recentChat := UpdateRecentChat st.recentChat cid chatTypeStr }
  match trackStep with
  | none => none
  | some st1 =>
    let st2 : HandlerState :=
      match ev.messageId, ev.chatId with
      | some mid, some cid =>
        let msg : Message :=
          { id := 0, chatId := cid, messageId := mid, senderId := "",
            senderType := "user", content := ev.content.getD "",
            messageType := ev.messageType.getD "", createdAt := now }
        { st1 with db := SaveMessage st1.db msg }
      | _, _ => st1
    match extractText ev.content ev.messageType with
    | none => none
    | some t =>
      let body := replyBody t
      match ev.chatType with
      | none => none
      | some ct =>
        if ct == "p2p" then
          match ev.chatId with
          | none => none
          | some cid => some (st2, [OutboundCall.create cid body])
        else
          match ev.messageId with
          | none => none
          | some mid => some (st2, [OutboundCall.reply mid body])

/-! ## Statement-level definitions used by the theorems below -/

/-- Number of rows carrying a given `message_id` (the UNIQUE key). -/
def countMid (db : DB) (mid : String) : Nat :=
  (db.rows.filter (fun r => r.messageId == mid)).length

/-- What C3 asserts of the store after the two `put` calls: exactly one row
with the shared key remains, carrying the `content` and
`created_at`. -/
def LastWriterWinsSpec (db : DB) (m1 m2 : Message) : Prop :=
  countMid (SaveMessage (SaveMessage db m1) m2) m2.messageId = 1 ∧
  ∀ r ∈ (SaveMessage (SaveMessage db m1) m2).rows,
    r.messageId = m2.messageId → r.content = m2.content ∧ r.createdAt = m2.createdAt

/-- What C4 asserts of `GetMessagesByChatID db chatID limit now`: it is the
newest-first query result reversed; it has `min (effLimit limit)` (the
conversation size) entries; every entry belongs to the conversation; the
underlying selection read oldest-first is chronologically ordered; and every
conversation row left out of the selection is no newer than every selected
row. -/
def ListByConversationSpec (db : DB) (chatID : String) (limit : Int) (now : String) : Prop :=
  GetMessagesByChatID db chatID limit now =
    ((queryNewestFirst db chatID (effLimit limit)).map (scanRow now)).reverse ∧
  (GetMessagesByChatID db chatID limit now).length =
    min (effLimit limit) (convRows db chatID).length ∧
  (∀ m ∈ GetMessagesByChatID db chatID limit now, m.chatId = chatID) ∧
  List.Pairwise (fun a b => newerLE b a)
    (queryNewestFirst db chatID (effLimit limit)).reverse ∧
  (∀ r ∈ convRows db chatID, r ∉ queryNewestFirst db chatID (effLimit limit) →
    ∀ r2 ∈ queryNewestFirst db chatID (effLimit limit), newerLE r2 r)

/-- What the amended C2 asserts of `DeleteOldMessages db chatID k`: rows of
other conversations are untouched; the surviving rows of the conversation
are exactly the first `k` of the newest-first query order — `created_at`
descending, timestamp ties emitted ascending by sequence id, so among ties
the earliest-inserted rows are retained; every deleted row of the
conversation is no newer than every surviving one under that order; and
`k = 0` deletes the whole conversation. -/
def TrimSpec (db : DB) (chatID : String) (k : Nat) : Prop :=
  (DeleteOldMessages db chatID (Int.ofNat k)).rows.filter (fun r => !(r.chatId == chatID)) =
    db.rows.filter (fun r => !(r.chatId == chatID)) ∧
  ((DeleteOldMessages db chatID (Int.ofNat k)).rows.filter (fun r => r.chatId == chatID)).Perm
    (queryNewestFirst db chatID k) ∧
  (∀ r ∈ db.rows, r.chatId = chatID →
    r ∉ (DeleteOldMessages db chatID (Int.ofNat k)).rows →
    ∀ r2 ∈ (DeleteOldMessages db chatID (Int.ofNat k)).rows, r2.chatId = chatID →
      newerLE r2 r) ∧
  (k = 0 →
    (DeleteOldMessages db chatID (Int.ofNat k)).rows.filter (fun r => r.chatId == chatID) = [])

/-- What C10 asserts of each returned message: it stems from a stored row
whose non-timestamp columns it copies, and its `CreatedAt` is the stored
timestamp when that parses in layout `2006-01-02 15:04:05` and the current
wall-clock time `now` otherwise. -/
def ScanFallbackSpec (db : DB) (now : String) (m : Message) : Prop :=
  ∃ r, r ∈ db.rows ∧ r.id = m.id ∧ r.chatId = m.chatId ∧
    r.messageId = m.messageId ∧ r.content = m.content ∧
    (isValidDateTime r.createdAt = false → m.createdAt = now) ∧
    (isValidDateTime r.createdAt = true → m.createdAt = r.createdAt)

/-- What C5 asserts of a handler run: it completes (returns `nil`) having
issued exactly one outbound call — a create addressed to the conversation id
when the conversation kind is `p2p`, otherwise a reply addressed to the
platform message id — whose body is the two-line bilingual text embedding
the display text `t` once per language. -/
def RoutingSpec (now : String) (st : HandlerState) (ev : EventMessage)
    (cid mid k t : String) : Prop :=
  ∃ st2 : HandlerState,
    OnP2MessageReceiveV1 now st ev =
      some (st2,
        [if k == "p2p" then OutboundCall.create cid (replyBody t)
         else OutboundCall.reply mid (replyBody t)])

/-- What C8 asserts: the handler completes embedding `displayText c mt`,
which is the fixed bilingual fallback notice when the payload does not
unmarshal or the kind is not `"text"`, and the parsed display text when it
does and the kind is `"text"`. -/
def FallbackSpec (now : String) (st : HandlerState) (ev : EventMessage)
    (cid mid k c mt : String) : Prop :=
  RoutingSpec now st ev cid mid k (displayText c mt) ∧
  ((unmarshalStringMap c = none ∨ mt ≠ "text") → displayText c mt = fallbackText) ∧
  (∀ m, unmarshalStringMap c = some m → mt = "text" →
    displayText c mt = lookupValue m "text")

/-- What C6 asserts of a broadcast over the listed conversations `ids`. -/
def BroadcastSpec (fetch : String → PageResp) (fuel : Nat)
    (sendText : String → String → Option String) (content : String)
    (ids : List String) : Prop :=
  ∃ S : BroadcastSummary,
    SendMessageToAllChats fetch fuel sendText content = some (Except.ok S) ∧
    S.total = ids.length ∧
    S.success + S.failed = S.total ∧
    S.results.map (fun x => x.chatId) = ids ∧
    (∀ x ∈ S.results,
      (x.status = "success" ∧ x.error = none ∧ sendText x.chatId content = none) ∨
      (∃ e, x.status = "failed" ∧ x.error = some e ∧ sendText x.chatId content = some e)) ∧
    (ids = [] → S = { total := 0, success := 0, failed := 0, results := [] })

/-- The record `SendMessageToAllChats` appends for one conversation. -/
def chatRecord (sendText : String → String → Option String)
    (content cid : String) : ChatSendResult :=
  match sendText cid content with
  | some e => { chatId := cid, status := "failed", error := some e }
  | none => { chatId := cid, status := "success", error := none }

/-- A terminating cursor walk: starting from the given token, each fetched
page is successful, each but the last asks for a further page, and the last
reports no further page. -/
def goodChain (fetch : String → PageResp) : String → List PageResp → Prop
  | _, [] => False
  | tok, [p] => fetch tok = p ∧ p.ok = true ∧ contCond p = false
  | tok, p :: q :: ps =>
    fetch tok = p ∧ p.ok = true ∧ contCond p = true ∧
    goodChain fetch (p.pageToken.getD "") (q :: ps)

/-- A cursor walk that runs into a failing page `q` after the successful
pages `ps`. -/
def failChain (fetch : String → PageResp) : String → List PageResp → PageResp → Prop
  | tok, [], q => fetch tok = q ∧ q.ok = false
  | tok, p :: ps, q =>
    fetch tok = p ∧ p.ok = true ∧ contCond p = true ∧
    failChain fetch (p.pageToken.getD "") ps q

/-- The non-nil chat ids of a page sequence, in page order. -/
def collectIDs (ps : List PageResp) : List String :=
  ps.flatMap (fun p => p.items.filterMap id)

/-- The state a completed handler run leaves behind: tracker overwritten
with the conversation of the event, and the message of the event upserted with
`senderType = "user"` and `createdAt = now` (absent content or kind
becoming `""`). -/
def expectedPostState (now : String) (st : HandlerState) (ev : EventMessage)
    (cid mid k : String) : HandlerState :=
  let rc : RecentChat :=
    { chatID := cid, chatType := if k == "p2p" then "p2p" else "group" }
  let msg : Message :=
    { id := 0, chatId := cid, messageId := mid, senderId := "",
      senderType := "user", content := ev.content.getD "",
      messageType := ev.messageType.getD "", createdAt := now }
  { recentChat := some rc, db := SaveMessage st.db msg }

/-! ## Concrete inputs used by the evaluation theorems and witnesses -/

/-- Empty tracker slot and empty message table. -/
def initState : HandlerState :=
  { recentChat := none, db := { rows := [], nextId := 1 } }

/-- An inbound event whose `Content` pointer is nil while every other field
is present — the combination C1 promises is tolerated. -/
def evMissingContent : EventMessage :=
  { messageId := some "om_1", chatId := some "oc_1", messageType := some "text",
    chatType := some "p2p", content := none }

/-- A fully populated p2p text event. -/
def evP2pText : EventMessage :=
  { messageId := some "om_1", chatId := some "oc_1", messageType := some "text",
    chatType := some "p2p", content := some "\x7b\"text\":\"hi\"\x7d" }

/-- A fully populated group event with a non-text payload. -/
def evGroupImage : EventMessage :=
  { messageId := some "om_2", chatId := some "oc_2", messageType := some "image",
    chatType := some "group", content := some "\x7b\"image_key\":\"k\"\x7d" }

/-- A platform whose listing has a single successful final page. -/
def fetchOnePage : String → PageResp := fun _ =>
  { ok := true, errMsg := "", items := [some "oc_a", none, some "oc_b"],
    hasMore := some false, pageToken := none }

/-- A send capability that fails exactly for chat `oc_b`. -/
def sendFailB : String → String → Option String := fun cid _ =>
  if cid == "oc_b" then some "boom" else none

/-- A small message table: three rows of conversation `c1` (one with a
corrupt timestamp) and one row of conversation `c2`. -/
def dbW : DB :=
  { rows :=
      [ { id := 1, chatId := "c1", messageId := "m1", senderId := "", senderType := "user",
          content := "a", messageType := "text", createdAt := "2024-01-02 03:04:05" },
        { id := 2, chatId := "c1", messageId := "m2", senderId := "", senderType := "user",
          content := "b", messageType := "text", createdAt := "corrupt" },
        { id := 3, chatId := "c2", messageId := "m3", senderId := "", senderType := "user",
          content := "c", messageType := "text", createdAt := "2024-01-02 03:04:06" },
        { id := 4, chatId := "c1", messageId := "m4", senderId := "", senderType := "user",
          content := "d", messageType := "text", createdAt := "2024-01-02 03:04:07" } ],
    nextId := 5 }

/-- A table holding a single row whose stored `created_at` text is not a
valid `2006-01-02 15:04:05` timestamp. -/
def dbFb : DB :=
  { rows :=
      [ { id := 1, chatId := "c1", messageId := "m1", senderId := "", senderType := "user",
          content := "b", messageType := "text", createdAt := "corrupt" } ],
    nextId := 2 }

/-- The message `GetMessagesByChatID` yields for the corrupt-timestamp row of `dbFb` when the wall clock reads `2024-06-01 00:00:00`. -/
def msgFallbackW : Message :=
  { id := 1, chatId := "c1", messageId := "m1", senderId := "", senderType := "user",
    content := "b", messageType := "text", createdAt := "2024-06-01 00:00:00" }

/-- Three rows of one conversation sharing one `created_at` second, in
insertion order (sequence ids 1, 2, 3). -/
def rowTie1 : Message :=
  { id := 1, chatId := "c1", messageId := "t1", senderId := "", senderType := "user",
    content := "a", messageType := "text", createdAt := "2024-01-02 03:04:05" }

def rowTie2 : Message :=
  { id := 2, chatId := "c1", messageId := "t2", senderId := "", senderType := "user",
    content := "b", messageType := "text", createdAt := "2024-01-02 03:04:05" }

def rowTie3 : Message :=
  { id := 3, chatId := "c1", messageId := "t3", senderId := "", senderType := "user",
    content := "c", messageType := "text", createdAt := "2024-01-02 03:04:05" }

/-- A conversation whose three messages collide at one timestamp. -/
def dbTie : DB := { rows := [rowTie1, rowTie2, rowTie3], nextId := 4 }

/-- A pair of upserts against an empty table, sharing a key. -/
def msgW1 : Message :=
  { id := 0, chatId := "c1", messageId := "m1", senderId := "", senderType := "user",
    content := "first", messageType := "text", createdAt := "2024-01-02 03:04:05" }

def msgW2 : Message :=
  { id := 0, chatId := "c1", messageId := "m1", senderId := "", senderType := "user",
    content := "second", messageType := "text", createdAt := "2024-01-02 03:04:09" }

/-! ## Theorems -/

theorem newerLE_total (a b : Message) : newerLE a b || newerLE b a := by
  simp only [newerLE, Bool.or_eq_true, Bool.and_eq_true, decide_eq_true_eq, beq_iff_eq]
  rcases lt_trichotomy a.createdAt b.createdAt with h | h | h
  · exact Or.inr (Or.inl h)
  · rcases Nat.le_total a.id b.id with hid | hid
    · exact Or.inl (Or.inr ⟨h, hid⟩)
    · exact Or.inr (Or.inr ⟨h.symm, hid⟩)
  · exact Or.inl (Or.inl h)

theorem newerLE_trans (a b c : Message) :
    newerLE a b → newerLE b c → newerLE a c := by
  simp only [newerLE, Bool.or_eq_true, Bool.and_eq_true, decide_eq_true_eq, beq_iff_eq]
  rintro (hab | ⟨hab1, hab2⟩) (hbc | ⟨hbc1, hbc2⟩)
  · exact Or.inl (lt_trans hbc hab)
  · exact Or.inl (hbc1 ▸ hab)
  · exact Or.inl (lt_of_lt_of_le hbc (le_of_eq hab1.symm))
  · exact Or.inr ⟨hab1.trans hbc1, le_trans hab2 hbc2⟩

theorem pairwise_sortDesc (l : List Message) :
    (l.mergeSort newerLE).Pairwise (fun a b => newerLE a b) :=
  List.sorted_mergeSort (fun a b c => newerLE_trans a b c)
    (fun a b => newerLE_total a b) l

/-- C9: `current()` returns exactly the conversation id and kind of the most
recent `update(conversationId, conversationKind)` call — last write wins on
the single slot — and returns absent when `update` has never been called. -/
theorem GetRecentChat_last_write_wins :
    (∀ (init : Option RecentChat) (cs : List (String × String)) (c : String × String),
      GetRecentChat (runUpdates init (cs ++ [c])) =
        some { chatID := c.1, chatType := c.2 }) ∧
    GetRecentChat (runUpdates none []) = none := by
  refine ⟨fun init cs c => ?_, rfl⟩
  simp [runUpdates, GetRecentChat, List.foldl_append, UpdateRecentChat]

theorem GetRecentChat_last_write_wins_witness :
    GetRecentChat (runUpdates none [("A", "group"), ("B", "p2p")]) =
      some { chatID := "B", chatType := "p2p" } :=
  GetRecentChat_last_write_wins.1 none [("A", "group")] ("B", "p2p")

/-- C1 fails on the code: an inbound event whose content field is absent (a
nil `Content` pointer) makes the handler dereference nil at
`json.Unmarshal([]byte(*event.Event.Message.Content), ...)` and panic
instead of completing with a non-error return; the same event with a content
payload runs to completion.  (The persistence step itself does tolerate the
nil and logs it — the unconditional dereference five lines later is the
slip.) -/
theorem OnP2MessageReceiveV1_nil_content_panics :
    OnP2MessageReceiveV1 "2024-01-02 03:04:05" initState evMissingContent = none ∧
    (OnP2MessageReceiveV1 "2024-01-02 03:04:05" initState evP2pText).isSome = true :=
  ⟨rfl, rfl⟩

theorem countMid_update_map (rows : List Message) (m : Message) (mid : String) :
    ((rows.map (fun r => if r.messageId == m.messageId then
        { r with content := m.content, createdAt := m.createdAt } else r)).filter
      (fun r => r.messageId == mid)).length =
    (rows.filter (fun r => r.messageId == mid)).length := by
  rw [List.filter_map, List.length_map]
  congr 1
  apply List.filter_congr
  intro r _
  show ((fun r => r.messageId == mid) (if r.messageId == m.messageId then
      { r with content := m.content, createdAt := m.createdAt } else r)) =
    (r.messageId == mid)
  by_cases h : r.messageId == m.messageId
  · rw [if_pos h]
  · rw [if_neg h]

theorem countMid_SaveMessage (db : DB) (m : Message)
    (hwf : countMid db m.messageId ≤ 1) :
    countMid (SaveMessage db m) m.messageId = 1 := by
  unfold countMid at hwf ⊢
  unfold SaveMessage
  by_cases h : db.rows.any (fun r => r.messageId == m.messageId)
  · rw [if_pos h]
    rw [countMid_update_map]
    obtain ⟨x, hx, hpx⟩ := List.any_eq_true.mp h
    have hmem : x ∈ db.rows.filter (fun r => r.messageId == m.messageId) :=
      List.mem_filter.mpr ⟨hx, hpx⟩
    have hpos : 0 < (db.rows.filter (fun r => r.messageId == m.messageId)).length :=
      List.length_pos.mpr (List.ne_nil_of_mem hmem)
    omega
  · rw [if_neg h]
    have hempty : db.rows.filter (fun r => r.messageId == m.messageId) = [] := by
      rw [List.filter_eq_nil_iff]
      intro x hx
      exact fun hpx => h (List.any_eq_true.mpr ⟨x, hx, hpx⟩)
    simp [List.filter_append, hempty]

theorem countMid_pos_any (db : DB) (mid : String) (h : 1 ≤ countMid db mid) :
    db.rows.any (fun r => r.messageId == mid) = true := by
  unfold countMid at h
  obtain ⟨x, hx⟩ := List.exists_mem_of_length_pos h
  obtain ⟨hxr, hpx⟩ := List.mem_filter.mp hx
  exact List.any_eq_true.mpr ⟨x, hxr, hpx⟩

/-- C3: two `put` calls with the same `platformMessageId` and different
bodies leave exactly one row with that key, carrying the body
and `createdAt`; the second call is an in-place update, never a duplicate
row (the expected conflict is absorbed by `ON CONFLICT ... DO UPDATE`, so
no constraint error arises).  The hypothesis is the UNIQUE-index
invariant: at most one existing row carries the key. -/
theorem SaveMessage_last_writer_wins (db : DB) (m1 m2 : Message)
    (hmid : m1.messageId = m2.messageId) (_hbody : m1.content ≠ m2.content)
    (hwf : countMid db m2.messageId ≤ 1) :
    LastWriterWinsSpec db m1 m2 := by
  have hwf1 : countMid db m1.messageId ≤ 1 := by rw [hmid]; exact hwf
  have h1 : countMid (SaveMessage db m1) m2.messageId = 1 := by
    rw [← hmid]; exact countMid_SaveMessage db m1 hwf1
  have hany : (SaveMessage db m1).rows.any (fun r => r.messageId == m2.messageId) = true :=
    countMid_pos_any _ _ (by omega)
  set X := SaveMessage db m1 with hX
  have hform : SaveMessage X m2 =
      { X with rows := X.rows.map (fun r => if r.messageId == m2.messageId then
          { r with content := m2.content, createdAt := m2.createdAt } else r) } := by
    unfold SaveMessage
    rw [if_pos hany]
  constructor
  · show countMid (SaveMessage X m2) m2.messageId = 1
    rw [hform]
    unfold countMid
    rw [countMid_update_map]
    exact h1
  · intro r hr hrm
    rw [hform] at hr
    obtain ⟨r0, hr0, heq⟩ := List.mem_map.mp hr
    by_cases hcase : r0.messageId == m2.messageId
    · rw [if_pos hcase] at heq
      constructor
      · rw [← heq]
      · rw [← heq]
    · rw [if_neg hcase] at heq
      exfalso
      apply hcase
      rw [heq, hrm]
      exact beq_self_eq_true _

theorem SaveMessage_last_writer_wins_witness :
    msgW1.messageId = msgW2.messageId ∧ msgW1.content ≠ msgW2.content ∧
    countMid { rows := [], nextId := 1 } msgW2.messageId ≤ 1 ∧
    LastWriterWinsSpec { rows := [], nextId := 1 } msgW1 msgW2 :=
  ⟨rfl, by decide, by decide,
    SaveMessage_last_writer_wins { rows := [], nextId := 1 } msgW1 msgW2 rfl
      (by decide) (by decide)⟩

theorem OnP2_run (now : String) (st : HandlerState) (ev : EventMessage)
    (cid mid k t : String)
    (hcid : ev.chatId = some cid) (hmid : ev.messageId = some mid)
    (hk : ev.chatType = some k)
    (ht : extractText ev.content ev.messageType = some t) :
    OnP2MessageReceiveV1 now st ev =
      some (expectedPostState now st ev cid mid k,
        [if k == "p2p" then OutboundCall.create cid (replyBody t)
         else OutboundCall.reply mid (replyBody t)]) := by
  unfold OnP2MessageReceiveV1 expectedPostState
  rw [hcid, hmid, hk, ht]
  by_cases hp : k == "p2p" <;> simp [hp, UpdateRecentChat]

theorem extractText_present (c mt : String) :
    extractText (some c) (some mt) = some (displayText c mt) := by
  cases hm : unmarshalStringMap c <;> simp [extractText, displayText, hm]

/-- C5: a completed handler run issues exactly one outbound call — a
`create` addressed to the conversation id of the event when the conversation
kind is `"p2p"`, otherwise a `reply` addressed to the platform
message id — and its body is the two-line bilingual text embedding the
display text once per language (`replyBody`).  The hypotheses are the
field presence the run dereferences on the way. -/
theorem OnP2MessageReceiveV1_routing (now : String) (st : HandlerState)
    (ev : EventMessage) (cid mid k t : String)
    (hcid : ev.chatId = some cid) (hmid : ev.messageId = some mid)
    (hk : ev.chatType = some k)
    (ht : extractText ev.content ev.messageType = some t) :
    RoutingSpec now st ev cid mid k t :=
  ⟨_, OnP2_run now st ev cid mid k t hcid hmid hk ht⟩

theorem OnP2MessageReceiveV1_routing_witness :
    extractText evP2pText.content evP2pText.messageType = some "hi" ∧
    RoutingSpec "2024-01-02 03:04:05" initState evP2pText "oc_1" "om_1" "p2p" "hi" :=
  ⟨rfl,
    OnP2MessageReceiveV1_routing "2024-01-02 03:04:05" initState evP2pText
      "oc_1" "om_1" "p2p" "hi" rfl rfl rfl rfl⟩

/-- C8: with all fields present, the handler completes embedding
`displayText c mt`, which is the fixed bilingual fallback notice whenever
the payload fails to unmarshal as a string map or the message kind is not
`"text"`, and is the parsed display text (the `"text"` entry of the map) when
the payload parses and the kind is `"text"`. -/
theorem OnP2MessageReceiveV1_fallback (now : String) (st : HandlerState)
    (ev : EventMessage) (cid mid k c mt : String)
    (hc : ev.content = some c) (hmt : ev.messageType = some mt)
    (hcid : ev.chatId = some cid) (hmid : ev.messageId = some mid)
    (hk : ev.chatType = some k) :
    FallbackSpec now st ev cid mid k c mt := by
  refine ⟨⟨_, OnP2_run now st ev cid mid k (displayText c mt) hcid hmid hk ?_⟩, ?_, ?_⟩
  · rw [hc, hmt]
    exact extractText_present c mt
  · intro h
    unfold displayText
    rcases h with h | h
    · rw [h]
    · cases hm : unmarshalStringMap c
      · rfl
      · have hfalse : (mt == "text") = false := by
          simp only [beq_eq_false_iff_ne, ne_eq]
          exact h
        simp [hfalse]
  · intro m hm hmt2
    unfold displayText
    rw [hm, hmt2]
    rfl

theorem OnP2MessageReceiveV1_fallback_witness :
    evGroupImage.content = some "\x7b\"image_key\":\"k\"\x7d" ∧
    evGroupImage.messageType = some "image" ∧
    FallbackSpec "2024-01-02 03:04:05" initState evGroupImage
      "oc_2" "om_2" "group" "\x7b\"image_key\":\"k\"\x7d" "image" :=
  ⟨rfl, rfl,
    OnP2MessageReceiveV1_fallback "2024-01-02 03:04:05" initState evGroupImage
      "oc_2" "om_2" "group" "\x7b\"image_key\":\"k\"\x7d" "image"
      rfl rfl rfl rfl rfl⟩

theorem getChatListLoop_goodChain (fetch : String → PageResp) :
    ∀ (ps : List PageResp) (tok : String) (acc : List String) (fuel : Nat),
      goodChain fetch tok ps → ps.length ≤ fuel →
      getChatListLoop fetch fuel tok acc = some (Except.ok (acc ++ collectIDs ps)) := by
  intro ps
  induction ps with
  | nil => intro tok acc fuel h _; exact absurd h (by simp [goodChain])
  | cons p ps ih =>
    intro tok acc fuel hch hlen
    cases fuel with
    | zero => simp at hlen
    | succ fuel =>
      cases ps with
      | nil =>
        obtain ⟨hf, hok, hcont⟩ := hch
        simp [getChatListLoop, hf, hok, hcont, collectIDs]
      | cons q ps2 =>
        obtain ⟨hf, hok, hcont, hrest⟩ := hch
        have hlen2 : (q :: ps2).length ≤ fuel := by
          simp only [List.length_cons] at hlen ⊢
          omega
        have hih := ih (p.pageToken.getD "") (acc ++ p.items.filterMap id) fuel hrest hlen2
        simp only [getChatListLoop, hf, hok, hcont, if_true]
        rw [hih]
        simp [collectIDs, List.append_assoc]

theorem getChatListLoop_failChain (fetch : String → PageResp) :
    ∀ (ps : List PageResp) (q : PageResp) (tok : String) (acc : List String) (fuel : Nat),
      failChain fetch tok ps q → ps.length < fuel →
      getChatListLoop fetch fuel tok acc =
        some (Except.error ("获取群聊列表失败: " ++ q.errMsg)) := by
  intro ps
  induction ps with
  | nil =>
    intro q tok acc fuel hch hlen
    obtain ⟨hf, hbad⟩ := hch
    cases fuel with
    | zero => simp at hlen
    | succ fuel => simp [getChatListLoop, hf, hbad]
  | cons p ps ih =>
    intro q tok acc fuel hch hlen
    obtain ⟨hf, hok, hcont, hrest⟩ := hch
    cases fuel with
    | zero => simp at hlen
    | succ fuel =>
      have hlen2 : ps.length < fuel := by
        simp only [List.length_cons] at hlen
        omega
      simp only [getChatListLoop, hf, hok, hcont, if_true]
      exact ih q (p.pageToken.getD "") (acc ++ p.items.filterMap id) fuel hrest hlen2

/-- C7: `GetChatList` follows the page-token cursor page by page, stops when
the platform reports no further page, and returns all non-nil conversation
ids accumulated in page order; when any page fetch fails (transport error or
unsuccessful response) the whole call returns the error and no partial id
list. -/
theorem GetChatList_pagination :
    (∀ (fetch : String → PageResp) (ps : List PageResp) (fuel : Nat),
      goodChain fetch "" ps → ps.length ≤ fuel →
      GetChatList fetch fuel = some (Except.ok (collectIDs ps))) ∧
    (∀ (fetch : String → PageResp) (ps : List PageResp) (q : PageResp) (fuel : Nat),
      failChain fetch "" ps q → ps.length < fuel →
      GetChatList fetch fuel = some (Except.error ("获取群聊列表失败: " ++ q.errMsg))) := by
  constructor
  · intro fetch ps fuel h hlen
    have hrun := getChatListLoop_goodChain fetch ps "" [] fuel h hlen
    simpa [GetChatList] using hrun
  · intro fetch ps q fuel h hlen
    exact getChatListLoop_failChain fetch ps q "" [] fuel h hlen

theorem GetChatList_pagination_witness :
    goodChain fetchOnePage "" [fetchOnePage ""] ∧
    GetChatList fetchOnePage 1 = some (Except.ok ["oc_a", "oc_b"]) := by
  have hch : goodChain fetchOnePage "" [fetchOnePage ""] := ⟨rfl, rfl, rfl⟩
  exact ⟨hch, GetChatList_pagination.1 fetchOnePage [fetchOnePage ""] 1 hch (by decide)⟩

theorem chatRecord_chatId (sendText : String → String → Option String)
    (content cid : String) : (chatRecord sendText content cid).chatId = cid := by
  unfold chatRecord
  cases sendText cid content <;> rfl

theorem broadcast_foldl (sendText : String → String → Option String) (content : String) :
    ∀ (ids : List String) (s f : Nat) (rs : List ChatSendResult),
      ids.foldl (broadcastStep sendText content) (s, f, rs) =
        (s + (ids.filter (fun cid => (sendText cid content).isNone)).length,
         f + (ids.filter (fun cid => (sendText cid content).isSome)).length,
         rs ++ ids.map (chatRecord sendText content)) := by
  intro ids
  induction ids with
  | nil => intro s f rs; simp
  | cons cid ids ih =>
    intro s f rs
    simp only [List.foldl_cons]
    cases hs : sendText cid content with
    | none =>
      have hstep : broadcastStep sendText content (s, f, rs) cid =
          (s + 1, f, rs ++ [{ chatId := cid, status := "success", error := none }]) := by
        unfold broadcastStep
        rw [hs]
      have hrec : chatRecord sendText content cid =
          { chatId := cid, status := "success", error := none } := by
        unfold chatRecord
        rw [hs]
      have hfilterN : (cid :: ids).filter (fun c2 => (sendText c2 content).isNone) =
          cid :: ids.filter (fun c2 => (sendText c2 content).isNone) := by
        simp [List.filter_cons, hs]
      have hfilterS : (cid :: ids).filter (fun c2 => (sendText c2 content).isSome) =
          ids.filter (fun c2 => (sendText c2 content).isSome) := by
        simp [List.filter_cons, hs]
      rw [hstep, ih, hfilterN, hfilterS, List.map_cons, hrec]
      simp [Prod.mk.injEq, List.length_cons, List.append_assoc,
        Nat.add_assoc, Nat.add_comm, Nat.add_left_comm]
    | some e =>
      have hstep : broadcastStep sendText content (s, f, rs) cid =
          (s, f + 1, rs ++ [{ chatId := cid, status := "failed", error := some e }]) := by
        unfold broadcastStep
        rw [hs]
      have hrec : chatRecord sendText content cid =
          { chatId := cid, status := "failed", error := some e } := by
        unfold chatRecord
        rw [hs]
      have hfilterN : (cid :: ids).filter (fun c2 => (sendText c2 content).isNone) =
          ids.filter (fun c2 => (sendText c2 content).isNone) := by
        simp [List.filter_cons, hs]
      have hfilterS : (cid :: ids).filter (fun c2 => (sendText c2 content).isSome) =
          cid :: ids.filter (fun c2 => (sendText c2 content).isSome) := by
        simp [List.filter_cons, hs]
      rw [hstep, ih, hfilterN, hfilterS, List.map_cons, hrec]
      simp [Prod.mk.injEq, List.length_cons, List.append_assoc,
        Nat.add_assoc, Nat.add_comm, Nat.add_left_comm]

theorem length_filter_send_split (sendText : String → String → Option String)
    (content : String) (ids : List String) :
    (ids.filter (fun cid => (sendText cid content).isNone)).length +
      (ids.filter (fun cid => (sendText cid content).isSome)).length = ids.length := by
  induction ids with
  | nil => rfl
  | cons cid ids ih =>
    cases hs : sendText cid content <;>
      simp only [List.filter_cons, hs, Option.isNone_none, Option.isSome_none,
        Option.isNone_some, Option.isSome_some, List.length_cons] <;>
      simp <;> omega

/-- C6: when the listing succeeds with `ids`, the broadcast returns a
non-error aggregate whose `total` is the number of conversations, with
`success + failed = total`, one per-conversation record per conversation in
listing order (failed entries carrying the send error message), send
failures never failing the call itself, and the empty list yielding the
zero summary without any send. -/
theorem SendMessageToAllChats_aggregates (fetch : String → PageResp) (fuel : Nat)
    (sendText : String → String → Option String) (content : String)
    (ids : List String)
    (hlist : GetChatList fetch fuel = some (Except.ok ids)) :
    BroadcastSpec fetch fuel sendText content ids := by
  have hform : SendMessageToAllChats fetch fuel sendText content =
      (if ids.isEmpty then
        some (Except.ok { total := 0, success := 0, failed := 0, results := [] })
      else
        let r := ids.foldl (broadcastStep sendText content) (0, 0, [])
        some (Except.ok { total := ids.length, success := r.1, failed := r.2.1, results := r.2.2 })) := by
    unfold SendMessageToAllChats
    rw [hlist]
  unfold BroadcastSpec
  rw [hform]
  by_cases hemp : ids.isEmpty
  · rw [if_pos hemp]
    have hnil : ids = [] := List.isEmpty_iff.mp hemp
    subst hnil
    exact ⟨_, rfl, rfl, rfl, rfl, by simp, fun _ => rfl⟩
  · rw [if_neg hemp]
    rw [broadcast_foldl]
    refine ⟨_, rfl, rfl, ?_, ?_, ?_, ?_⟩
    · simp only [Nat.zero_add]
      exact length_filter_send_split sendText content ids
    · simp only [List.nil_append, List.map_map]
      have hco : ((fun x => x.chatId) ∘ chatRecord sendText content) =
          fun cid => cid := by
        funext cid
        exact chatRecord_chatId sendText content cid
      rw [hco]
      simp
    · intro x hx
      simp only [List.nil_append] at hx
      obtain ⟨cid, _hcid, hxeq⟩ := List.mem_map.mp hx
      cases hs : sendText cid content with
      | none =>
        left
        have hx2 : x = { chatId := cid, status := "success", error := none } := by
          rw [← hxeq]
          unfold chatRecord
          rw [hs]
        subst hx2
        exact ⟨rfl, rfl, hs⟩
      | some e =>
        right
        refine ⟨e, ?_⟩
        have hx2 : x = { chatId := cid, status := "failed", error := some e } := by
          rw [← hxeq]
          unfold chatRecord
          rw [hs]
        subst hx2
        exact ⟨rfl, rfl, hs⟩
    · intro hnil
      subst hnil
      simp at hemp

theorem SendMessageToAllChats_aggregates_witness :
    GetChatList fetchOnePage 1 = some (Except.ok ["oc_a", "oc_b"]) ∧
    BroadcastSpec fetchOnePage 1 sendFailB "helloworld" ["oc_a", "oc_b"] :=
  ⟨rfl,
    SendMessageToAllChats_aggregates fetchOnePage 1 sendFailB "helloworld"
      ["oc_a", "oc_b"] rfl⟩

theorem scanRow_chatId (now : String) (r : Message) :
    (scanRow now r).chatId = r.chatId := by
  unfold scanRow
  by_cases h : isValidDateTime r.createdAt
  · rw [if_pos h]
  · rw [if_neg h]

theorem scanRow_id (now : String) (r : Message) : (scanRow now r).id = r.id := by
  unfold scanRow
  by_cases h : isValidDateTime r.createdAt
  · rw [if_pos h]
  · rw [if_neg h]

theorem scanRow_messageId (now : String) (r : Message) :
    (scanRow now r).messageId = r.messageId := by
  unfold scanRow
  by_cases h : isValidDateTime r.createdAt
  · rw [if_pos h]
  · rw [if_neg h]

theorem scanRow_content (now : String) (r : Message) :
    (scanRow now r).content = r.content := by
  unfold scanRow
  by_cases h : isValidDateTime r.createdAt
  · rw [if_pos h]
  · rw [if_neg h]

theorem scanRow_createdAt_invalid (now : String) (r : Message)
    (h : isValidDateTime r.createdAt = false) : (scanRow now r).createdAt = now := by
  unfold scanRow
  rw [if_neg (by simp [h])]

theorem scanRow_createdAt_valid (now : String) (r : Message)
    (h : isValidDateTime r.createdAt = true) : (scanRow now r).createdAt = r.createdAt := by
  unfold scanRow
  rw [if_pos h]

theorem mem_query_mem_conv (db : DB) (chatID : String) (lim : Nat) (r : Message)
    (hr : r ∈ queryNewestFirst db chatID lim) : r ∈ convRows db chatID :=
  List.mem_mergeSort.mp (List.mem_of_mem_take hr)

/-- C4: `listByConversation` returns the newest-first query result reversed;
at most the effective limit (50 when non-positive) of entries, namely
`min` of the limit and the conversation size; every returned message is of
the conversation; the returned order is chronological (oldest first); and
the selection keeps only newest rows — every conversation row left out is no
newer than any selected row. -/
theorem GetMessagesByChatID_spec (db : DB) (chatID : String) (limit : Int)
    (now : String) : ListByConversationSpec db chatID limit now := by
  unfold ListByConversationSpec
  refine ⟨rfl, ?_, ?_, ?_, ?_⟩
  · simp [GetMessagesByChatID, queryNewestFirst, List.length_take]
  · intro m hm
    simp only [GetMessagesByChatID, List.mem_reverse, List.mem_map] at hm
    obtain ⟨r, hr, rfl⟩ := hm
    have hr4 : r ∈ convRows db chatID := mem_query_mem_conv db chatID _ r hr
    have hchat : (r.chatId == chatID) = true := (List.mem_filter.mp hr4).2
    rw [scanRow_chatId]
    exact beq_iff_eq.mp hchat
  · rw [List.pairwise_reverse]
    exact List.Pairwise.sublist (List.take_sublist _ _)
      (pairwise_sortDesc (convRows db chatID))
  · intro r hr hnot r2 hr2
    have hrs : r ∈ (convRows db chatID).mergeSort newerLE := List.mem_mergeSort.mpr hr
    have hsplit : ((convRows db chatID).mergeSort newerLE).take (effLimit limit) ++
        ((convRows db chatID).mergeSort newerLE).drop (effLimit limit) =
        (convRows db chatID).mergeSort newerLE := List.take_append_drop _ _
    have hdrop : r ∈ ((convRows db chatID).mergeSort newerLE).drop (effLimit limit) := by
      rcases List.mem_append.mp (by rw [hsplit]; exact hrs) with h | h
      · exact absurd h hnot
      · exact h
    have hpair := pairwise_sortDesc (convRows db chatID)
    rw [← hsplit] at hpair
    exact (List.pairwise_append.mp hpair).2.2 r2 hr2 r hdrop

theorem GetMessagesByChatID_spec_witness :
    ListByConversationSpec dbW "c1" 2 "2024-06-01 00:00:00" :=
  GetMessagesByChatID_spec dbW "c1" 2 "2024-06-01 00:00:00"

/-- C10: every message returned by `GetMessagesByChatID` stems from a stored
row whose non-timestamp columns it copies; when the stored `created_at` text
does not parse in layout `2006-01-02 15:04:05` the message carries the
current wall-clock time `now` instead, and the read still succeeds (the
parse failure never becomes an error). -/
theorem GetMessagesByChatID_parse_fallback (db : DB) (chatID : String)
    (limit : Int) (now : String) (m : Message)
    (hm : m ∈ GetMessagesByChatID db chatID limit now) :
    ScanFallbackSpec db now m := by
  simp only [GetMessagesByChatID, List.mem_reverse, List.mem_map] at hm
  obtain ⟨r, hr, rfl⟩ := hm
  have hr4 : r ∈ convRows db chatID := mem_query_mem_conv db chatID _ r hr
  have hrdb : r ∈ db.rows := (List.mem_filter.mp hr4).1
  exact ⟨r, hrdb, (scanRow_id now r).symm, (scanRow_chatId now r).symm,
    (scanRow_messageId now r).symm, (scanRow_content now r).symm,
    fun h => scanRow_createdAt_invalid now r h,
    fun h => scanRow_createdAt_valid now r h⟩

theorem getMessages_dbFb_eval :
    GetMessagesByChatID dbFb "c1" 10 "2024-06-01 00:00:00" = [msgFallbackW] := by
  have hinv : isValidDateTime "corrupt" = false := by decide
  simp [GetMessagesByChatID, queryNewestFirst, convRows, dbFb, effLimit,
    scanRow, hinv, msgFallbackW]

theorem GetMessagesByChatID_parse_fallback_witness :
    msgFallbackW ∈ GetMessagesByChatID dbFb "c1" 10 "2024-06-01 00:00:00" ∧
    ScanFallbackSpec dbFb "2024-06-01 00:00:00" msgFallbackW :=
  ⟨by rw [getMessages_dbFb_eval]; exact List.mem_singleton_self _,
    GetMessagesByChatID_parse_fallback dbFb "c1" 10 "2024-06-01 00:00:00"
      msgFallbackW (by rw [getMessages_dbFb_eval]; exact List.mem_singleton_self _)⟩

theorem contains_iff_mem_nat (ids : List Nat) (i : Nat) :
    ids.contains i = true ↔ i ∈ ids := by
  simp [List.contains_eq_any_beq, List.any_eq_true, beq_iff_eq, eq_comm]

/-- C2, as amended (the original larger-sequence-first tie rule is refuted
by the engine, which emits ties ascending): trimming retains exactly the
`keepCount` first messages of the newest-first query order — `created_at`
descending, timestamp ties ascending by sequence id, so among ties the
earliest-inserted messages are retained rather than the latest — deletes
all its other messages, leaves other conversations untouched, and
`keepCount = 0` deletes the whole conversation.  The hypothesis is the
primary-key invariant: row ids are distinct. -/
theorem DeleteOldMessages_spec (db : DB) (chatID : String) (k : Nat)
    (hnd : (db.rows.map (fun r => r.id)).Nodup) :
    TrimSpec db chatID k := by
  have hnneg : ¬((Int.ofNat k) < 0) := Int.not_lt.mpr (Int.ofNat_nonneg k)
  set sorted := (convRows db chatID).mergeSort newerLE with hsorted
  set kept := sorted.take k with hkept
  set dropped := sorted.drop k with hdropped
  set keepIDs := kept.map (fun r => r.id) with hkeepIDs
  have hq : queryNewestFirst db chatID k = kept := rfl
  have hsplit : kept ++ dropped = sorted := List.take_append_drop k sorted
  have hpermSorted : List.Perm sorted (convRows db chatID) := List.mergeSort_perm _ _
  have hconvsub : List.Sublist (convRows db chatID) db.rows := List.filter_sublist _
  have hconv_nodup : ((convRows db chatID).map (fun r => r.id)).Nodup :=
    List.Nodup.sublist (List.Sublist.map _ hconvsub) hnd
  have hsorted_nodup : (sorted.map (fun r => r.id)).Nodup :=
    ((hpermSorted.map (fun r => r.id)).nodup_iff).mpr hconv_nodup
  have hids_append : sorted.map (fun r => r.id) =
      kept.map (fun r => r.id) ++ dropped.map (fun r => r.id) := by
    rw [← List.map_append, hsplit]
  have hdisj : ∀ d ∈ dropped, d.id ∉ keepIDs := by
    intro d hd hmem
    have h2 : d.id ∈ dropped.map (fun r => r.id) := List.mem_map_of_mem _ hd
    have hn := hsorted_nodup
    rw [hids_append] at hn
    exact (List.nodup_append.mp hn).2.2 hmem h2
  have hpairS : sorted.Pairwise (fun a b => newerLE a b) :=
    pairwise_sortDesc (convRows db chatID)
  have hform : DeleteOldMessages db chatID (Int.ofNat k) =
      (if keepIDs.isEmpty then
        { db with rows := db.rows.filter (fun r => !(r.chatId == chatID)) }
      else
        { db with rows := db.rows.filter (fun r =>
            !(r.chatId == chatID && !(keepIDs.contains r.id))) }) := by
    simp only [DeleteOldMessages]
    rw [if_neg hnneg]
    rfl
  unfold TrimSpec
  rw [hq, hform]
  by_cases hke : keepIDs.isEmpty
  · rw [if_pos hke]
    have hkept_nil : kept = [] := by
      have := List.isEmpty_iff.mp hke
      exact List.map_eq_nil_iff.mp this
    refine ⟨?_, ?_, ?_, ?_⟩
    · simp [List.filter_filter]
    · rw [hkept_nil]
      simp [List.filter_filter]
    · intro r _hr _hchat _hnot r2 hr2 hchat2
      have h2 := (List.mem_filter.mp hr2).2
      rw [hchat2] at h2
      simp at h2
    · intro _h0
      simp [List.filter_filter]
  · rw [if_neg hke]
    refine ⟨?_, ?_, ?_, ?_⟩
    · simp only [List.filter_filter]
      apply List.filter_congr
      intro r _
      cases hc : r.chatId == chatID <;> simp [hc]
    · have hchain : (db.rows.filter (fun r =>
          !(r.chatId == chatID && !(keepIDs.contains r.id)))).filter
            (fun r => r.chatId == chatID) =
          (convRows db chatID).filter (fun r => keepIDs.contains r.id) := by
        unfold convRows
        simp only [List.filter_filter]
        apply List.filter_congr
        intro r _
        cases hc : r.chatId == chatID <;> cases hk2 : keepIDs.contains r.id <;>
          simp [hc, hk2]
      rw [hchain]
      have hsortedf : sorted.filter (fun r => keepIDs.contains r.id) = kept := by
        rw [← hsplit, List.filter_append]
        have h1 : kept.filter (fun r => keepIDs.contains r.id) = kept := by
          rw [List.filter_eq_self]
          intro a ha
          exact (contains_iff_mem_nat keepIDs a.id).mpr (List.mem_map_of_mem _ ha)
        have h2 : dropped.filter (fun r => keepIDs.contains r.id) = [] := by
          rw [List.filter_eq_nil_iff]
          intro d hd hcont
          exact hdisj d hd ((contains_iff_mem_nat keepIDs d.id).mp hcont)
        rw [h1, h2, List.append_nil]
      have hpermf := (hpermSorted.filter (fun r => keepIDs.contains r.id)).symm
      rw [hsortedf] at hpermf
      exact hpermf
    · intro r hr hchat hnot r2 hr2 hchat2
      have hrc : r ∈ convRows db chatID :=
        List.mem_filter.mpr ⟨hr, by simp [hchat]⟩
      have hSr : (!(r.chatId == chatID && !(keepIDs.contains r.id))) = false := by
        cases hS2 : (!(r.chatId == chatID && !(keepIDs.contains r.id))) with
        | false => rfl
        | true => exact absurd (List.mem_filter.mpr ⟨hr, hS2⟩) hnot
      have hcont_false : keepIDs.contains r.id = false := by
        cases hb : keepIDs.contains r.id with
        | false => rfl
        | true =>
          exfalso
          rw [hb] at hSr
          simp at hSr
      have hrid_not : r.id ∉ keepIDs := by
        intro hm
        rw [(contains_iff_mem_nat keepIDs r.id).mpr hm] at hcont_false
        cases hcont_false
      have hrk : r ∉ kept := fun hk2 => hrid_not (List.mem_map_of_mem _ hk2)
      have hrs : r ∈ sorted := (hpermSorted.mem_iff).mpr hrc
      rw [← hsplit] at hrs
      have hrd : r ∈ dropped := by
        rcases List.mem_append.mp hrs with h | h
        · exact absurd h hrk
        · exact h
      obtain ⟨hr2rows, hSr2⟩ := List.mem_filter.mp hr2
      have hr2cont : keepIDs.contains r2.id = true := by
        cases hb : keepIDs.contains r2.id with
        | true => rfl
        | false =>
          exfalso
          have hc : (r2.chatId == chatID) = true := by simp [hchat2]
          rw [hb, hc] at hSr2
          simp at hSr2
      have hr2conv : r2 ∈ convRows db chatID :=
        List.mem_filter.mpr ⟨hr2rows, by simp [hchat2]⟩
      have hr2sorted : r2 ∈ sorted := (hpermSorted.mem_iff).mpr hr2conv
      rw [← hsplit] at hr2sorted
      have hr2kept : r2 ∈ kept := by
        rcases List.mem_append.mp hr2sorted with h | h
        · exact h
        · exact absurd ((contains_iff_mem_nat keepIDs r2.id).mp hr2cont)
            (hdisj r2 h)
      have hpair2 := hpairS
      rw [← hsplit] at hpair2
      exact (List.pairwise_append.mp hpair2).2.2 r2 hr2kept r hrd
    · intro h0
      exfalso
      apply hke
      rw [hkeepIDs, hkept, h0]
      simp

theorem DeleteOldMessages_spec_witness :
    ((dbW.rows.map (fun r => r.id)).Nodup) ∧ TrimSpec dbW "c1" 2 :=
  ⟨by decide, DeleteOldMessages_spec dbW "c1" 2 (by decide)⟩

/-- C2 as originally stated is false of the program: with three messages of
one conversation inserted in the same `created_at` second (sequence ids 1,
2, 3), the claim demands that `trimToRecent(c, 2)` retain the two most
recent by insertion/sequence order — ids 3 and 2 — and delete id 1.  The
engine emits timestamp ties ascending by rowid, so the keep query selects
ids 1 and 2 and the trim deletes id 3, the most recently inserted
message. -/
theorem DeleteOldMessages_tie_counterexample :
    DeleteOldMessages dbTie "c1" 2 = { rows := [rowTie1, rowTie2], nextId := 4 } ∧
    rowTie3 ∉ (DeleteOldMessages dbTie "c1" 2).rows ∧
    rowTie1 ∈ (DeleteOldMessages dbTie "c1" 2).rows := by
  have hnew : ∀ (a b : Message), a.createdAt = b.createdAt → a.id ≤ b.id →
      newerLE a b = true := by
    intro a b hca hid
    unfold newerLE
    rw [hca, decide_eq_false (lt_irrefl b.createdAt), beq_self_eq_true,
      decide_eq_true hid]
    rfl
  have hconv : convRows dbTie "c1" = [rowTie1, rowTie2, rowTie3] := by decide
  have hpw : List.Pairwise (fun a b => newerLE a b = true) (convRows dbTie "c1") := by
    rw [hconv]
    have h12 := hnew rowTie1 rowTie2 rfl (by decide)
    have h13 := hnew rowTie1 rowTie3 rfl (by decide)
    have h23 := hnew rowTie2 rowTie3 rfl (by decide)
    simp [List.pairwise_cons, h12, h13, h23]
  have hms : (convRows dbTie "c1").mergeSort newerLE = convRows dbTie "c1" :=
    List.mergeSort_of_sorted hpw
  have heval : DeleteOldMessages dbTie "c1" 2 =
      { rows := [rowTie1, rowTie2], nextId := 4 } := by
    simp only [DeleteOldMessages]
    rw [hms]
    decide
  refine ⟨heval, ?_, ?_⟩
  · rw [heval]
    decide
  · rw [heval]
    decide

end FinBot
